import Mathlib

/-!
Shallow embedding of the load-test orchestrator in `src/loadtesting.ts` of the
stepci runner, together with the collaborator interfaces it consumes.

Modelling conventions:
* JavaScript numbers (latency samples, thresholds, clock readings) are modelled
  as exact rationals `ℚ`.
* Thrown JavaScript errors are modelled by `Except LoadErr`; each constructor of
  `LoadErr` records which `throw` site (or runtime `TypeError`) produced it.
* The phase scheduler is external: its output, the list of settled iteration
  outcomes, is an input of `loadTest`.  The wall clock is external: the reading
  taken at `const start = new Date()` and the two later `Date.now()` readings
  are inputs of `loadTest` (in milliseconds).
* The statistical primitives come from the `simple-statistics` package; they are
  embedded in the `SimpleStatistics` namespace following that library's
  documented algorithms (scan for extrema, mean as sum over count, and the
  sort-then-index quantile with averaging at even integral positions).
-/

/-- Modelled from the spec: a matcher is a declarative comparison predicate
(less-than, at-least, equality and the like) used to build a threshold.
The module `./matcher` is not part of the analysed source file. -/
inductive Matcher where
  | eq (value : ℚ)
  | lt (value : ℚ)
  | lte (value : ℚ)
  | gt (value : ℚ)
  | gte (value : ℚ)

/-- Modelled from the spec: evaluation of a single matcher against an observed value. -/
def Matcher.passes (observed : ℚ) : Matcher → Bool
  | .eq v => observed == v
  | .lt v => decide (observed < v)
  | .lte v => decide (observed ≤ v)
  | .gt v => decide (v < observed)
  | .gte v => decide (v ≤ observed)

/-- A configured threshold for one metric key: in the TypeScript source the type
is `number | Matcher[]`. -/
inductive Threshold where
  | num (value : ℚ)
  | matchers (ms : List Matcher)

/-- JavaScript truthiness of a threshold value: the number `0` is falsy, every
array (even the empty one) is truthy.  This drives the `if (check.avg)` tests. -/
def Threshold.truthy : Threshold → Bool
  | .num v => decide (v ≠ 0)
  | .matchers _ => true

/-- Modelled from the spec: the structured pass/fail verdict of one check
(`CheckResult` of `./matcher`): the observed value plus the verdict. -/
structure CheckResult where
  given : ℚ
  passed : Bool

/-- Modelled from the spec: `checkResult` of `./matcher`.  A single numeric bound
means the observed value must equal the bound; a matcher list passes when every
matcher passes (logical AND). -/
def checkResult (given : ℚ) (expected : Threshold) : CheckResult :=
  match expected with
  | .num v => { given := given, passed := given == v }
  | .matchers ms => { given := given, passed := ms.all (Matcher.passes given) }

/-- Modelled from the spec: one step outcome inside an iteration
(`steps` leaves of a `TestResult` of `./index`): pass flag and response time. -/
structure StepResult where
  passed : Bool
  responseTime : ℚ

/-- Modelled from the spec: one test inside an iteration, an ordered sequence of steps. -/
structure TestResult where
  steps : List StepResult

/-- Modelled from the spec: the `result` member of a `WorkflowResult` of `./index`:
top-level pass flag plus the tests tree. -/
structure WorkflowResultValue where
  passed : Bool
  tests : List TestResult

/-- Modelled from the spec: the value of one fulfilled workflow run (`WorkflowResult`
of `./index`); only its `result` member is consumed by the orchestrator. -/
structure WorkflowResult where
  result : WorkflowResultValue

/-- Modelled from the spec: one phase of the schedule (owned by the `phasic`
collaborator): arrival rate and duration. -/
structure Phase where
  arrivalRate : ℚ
  duration : ℚ

/-- The `check` block of the load-test configuration (`LoadTestCheck` in the source):
every metric key optional. -/
structure LoadTestCheck where
  avg : Option Threshold
  min : Option Threshold
  max : Option Threshold
  med : Option Threshold
  p95 : Option Threshold
  p99 : Option Threshold

/-- The `config.loadTest` block: optional phases list and optional check block. -/
structure LoadTestConfig where
  phases : Option (List Phase)
  check : Option LoadTestCheck

/-- The `config` member of a workflow; only its `loadTest` block is consumed here. -/
structure WorkflowConfig where
  loadTest : Option LoadTestConfig

/-- Modelled from the spec: a workflow definition (opaque to this core except for
its optional configuration block). -/
structure Workflow where
  config : Option WorkflowConfig

/-- One settled outcome reported by the phase scheduler, mirroring
`PromiseSettledResult<WorkflowResult>`: fulfilled with a value, or rejected. -/
inductive Settled (α : Type) where
  | fulfilled (value : α)
  | rejected

/-- The thrown errors of a `loadTest` call, by `throw` site:
* `missingLoadTestConfig` — line 76, `throw Error('No load test config detected')`;
* `harvestTypeError` — line 80, reading `.result` of `undefined` when a settled
  outcome is rejected (its `value` member is absent);
* `emptySampleSet` — lines 57-66, the statistics collaborator throws on an empty
  sample list (for instance mean requires at least one data point);
* `checksEntriesTypeError` — line 141, `Object.entries(checks as object)` throws
  when `checks` is `undefined` because no check block was configured. -/
inductive LoadErr where
  | missingLoadTestConfig
  | harvestTypeError
  | emptySampleSet
  | checksEntriesTypeError

/-- `LoadTestMetric` in the source: the summary of the latency samples. -/
structure LoadTestMetric where
  avg : ℚ
  min : ℚ
  max : ℚ
  med : ℚ
  p95 : ℚ
  p99 : ℚ

/-- `LoadTestChecksResult` in the source: optional per-metric check verdicts. -/
structure LoadTestChecksResult where
  avg : Option CheckResult
  min : Option CheckResult
  max : Option CheckResult
  med : Option CheckResult
  p95 : Option CheckResult
  p99 : Option CheckResult

/-- The `tests` and `steps` members of `stats` in `LoadTestResult`. -/
structure CountStats where
  passed : ℕ
  total : ℕ

/-- The `stats` member of `LoadTestResult`. -/
structure LoadStats where
  tests : CountStats
  steps : CountStats

/-- The `result` member of `LoadTestResult` in the source. -/
structure LoadTestResultValue where
  stats : LoadStats
  responseTime : LoadTestMetric
  iterations : ℕ
  rps : ℚ
  duration : ℚ
  passed : Bool
  checks : Option LoadTestChecksResult

/-- `LoadTestResult` in the source: the workflow echoed back plus the report. -/
structure LoadTestResult where
  workflow : Workflow
  result : LoadTestResultValue

namespace SimpleStatistics

/-- The `min` primitive of simple-statistics: scan for the smallest sample;
throws (here `none`) on an empty list. -/
def min : List ℚ → Option ℚ
  | [] => none
  | a :: l => some (l.foldl Min.min a)

/-- The `max` primitive of simple-statistics: scan for the largest sample;
throws (here `none`) on an empty list. -/
def max : List ℚ → Option ℚ
  | [] => none
  | a :: l => some (l.foldl Max.max a)

/-- The `mean` primitive of simple-statistics: sum divided by count (the
library's compensated summation is exact over `ℚ`); throws (`none`) on an
empty list. -/
def mean (x : List ℚ) : Option ℚ :=
  if x.length = 0 then none else some (x.sum / (x.length : ℚ))

/-- The ascending numeric sort used by `quantile`. -/
def numericSort (x : List ℚ) : List ℚ := x.insertionSort (· ≤ ·)

/-- The `quantileSorted` primitive of simple-statistics on an ascending list:
with `idx = length * p`, return the element at `ceil(idx) - 1` when `idx` is
not integral; when `idx` is integral, average the elements at `idx - 1` and
`idx` for even-length input, else return the element at `idx`.  Out-of-range
`p` and the empty list throw (`none`). -/
def quantileSorted (x : List ℚ) (p : ℚ) : Option ℚ :=
  if x.length = 0 then none
  else if p < 0 ∨ 1 < p then none
  else if p = 1 then some (x.getD (x.length - 1) 0)
  else if p = 0 then some (x.getD 0 0)
  else if ((x.length : ℚ) * p).den ≠ 1 then
    some (x.getD (⌈(x.length : ℚ) * p⌉.toNat - 1) 0)
  else if x.length % 2 = 0 then
    some ((x.getD (((x.length : ℚ) * p).num.toNat - 1) 0
            + x.getD ((x.length : ℚ) * p).num.toNat 0) / 2)
  else
    some (x.getD ((x.length : ℚ) * p).num.toNat 0)

/-- The `quantile` primitive: sort a copy, then `quantileSorted`. -/
def quantile (x : List ℚ) (p : ℚ) : Option ℚ := quantileSorted (numericSort x) p

/-- The `median` primitive: the 0.5 quantile. -/
def median (x : List ℚ) : Option ℚ := quantile x (1/2)

end SimpleStatistics

/-- Lines 57-66 of the source, `metricsResult`: assemble the six summary fields.
Each statistical primitive throws exactly on the empty sample list, so the
whole aggregation fails with the empty-sample-set condition iff `numbers` is
empty (0.95 and 0.99 are in range). -/
def metricsResult (numbers : List ℚ) : Except LoadErr LoadTestMetric :=
  match SimpleStatistics.mean numbers, SimpleStatistics.min numbers,
        SimpleStatistics.max numbers, SimpleStatistics.median numbers,
        SimpleStatistics.quantile numbers (95/100),
        SimpleStatistics.quantile numbers (99/100) with
  | some avg, some mn, some mx, some md, some q95, some q99 =>
      .ok { avg := avg, min := mn, max := mx, med := md, p95 := q95, p99 := q99 }
  | _, _, _, _, _, _ => .error .emptySampleSet

/-- Line 80 of the source:
`resultList.map(result => (result as PromiseFulfilledResult<WorkflowResult>).value.result)`.
On a rejected settled outcome the `value` member is `undefined`, so reading its
`result` member throws a `TypeError`. -/
def harvestResults : List (Settled WorkflowResult) → Except LoadErr (List WorkflowResultValue)
  | [] => .ok []
  | .fulfilled v :: rest =>
      match harvestResults rest with
      | .error e => .error e
      | .ok tail => .ok (v.result :: tail)
  | .rejected :: _ => .error .harvestTypeError

/-- Line 86 of the source: flatten the per-iteration trees to the step-level
pass flags, `results.map(r => r.tests).map(t => t.map(t => t.steps.map(s => s.passed))).flat(2)`. -/
def flatStepsPassed (results : List WorkflowResultValue) : List Bool :=
  (((results.map fun r => r.tests).map fun tests =>
      tests.map fun t => t.steps.map fun s => s.passed).flatten).flatten

/-- Line 90 of the source: flatten the per-iteration trees to the step-level
response times. -/
def flatResponseTimes (results : List WorkflowResultValue) : List ℚ :=
  (((results.map fun r => r.tests).map fun tests =>
      tests.map fun t => t.steps.map fun s => s.responseTime).flatten).flatten

/-- Lines 98-120 of the source: one key of the check block.  The guard is the
JavaScript truthiness test `if (check.avg) { ... }`: an absent key and the
numeric threshold `0` are skipped, everything else is evaluated. -/
def evalCheckKey (expected : Option Threshold) (observed : ℚ) : Option CheckResult :=
  match expected with
  | none => none
  | some t => if t.truthy then some (checkResult observed t) else none

/-- Lines 94-121 of the source: `checks` stays `undefined` (`none`) when no check
block is configured; otherwise each configured truthy key is evaluated. -/
def mkChecks (check : Option LoadTestCheck) (rt : LoadTestMetric) : Option LoadTestChecksResult :=
  match check with
  | none => none
  | some ck => some
      { avg := evalCheckKey ck.avg rt.avg
        min := evalCheckKey ck.min rt.min
        max := evalCheckKey ck.max rt.max
        med := evalCheckKey ck.med rt.med
        p95 := evalCheckKey ck.p95 rt.p95
        p99 := evalCheckKey ck.p99 rt.p99 }

/-- The entry list of the checks object in insertion order, as produced by
`Object.entries` on the object built in lines 96-120. -/
def checksEntries (c : LoadTestChecksResult) : List CheckResult :=
  [c.avg, c.min, c.max, c.med, c.p95, c.p99].filterMap id

/-- Line 141 of the source:
`Object.entries(checks as object).map(([k, v]) => v.passed).every(passed => passed)`.
When `checks` is `undefined` (no check block configured) `Object.entries`
throws a `TypeError`; otherwise the overall flag is the conjunction over the
present entries (vacuously `true` for an empty object). -/
def overallPassed : Option LoadTestChecksResult → Except LoadErr Bool
  | none => .error .checksEntriesTypeError
  | some c => .ok ((checksEntries c).all fun cr => cr.passed)

/-- The optional chain `workflow.config?.loadTest?.phases`. -/
def configPhases (workflow : Workflow) : Option (List Phase) :=
  (workflow.config.bind fun c => c.loadTest).bind fun l => l.phases

/-- The optional chain `workflow.config?.loadTest?.check`. -/
def configCheck (workflow : Workflow) : Option LoadTestCheck :=
  (workflow.config.bind fun c => c.loadTest).bind fun l => l.check

/-- Lines 75-147 of the source, `loadTest`.  The scheduler's settled outcomes and
the clock readings are inputs: `start` is the reading of `new Date()` at line
78, `now1` and `now2` the readings of the two `Date.now()` calls at lines 137
and 139 (milliseconds).  Event emission at line 145 is an external side effect
and does not alter the returned report. -/
def loadTest (workflow : Workflow) (settled : List (Settled WorkflowResult))
    (start now1 now2 : ℚ) : Except LoadErr LoadTestResult :=
  match configPhases workflow with
  | none => .error .missingLoadTestConfig
  | some _phases =>
    match harvestResults settled with
    | .error e => .error e
    | .ok results =>
      match metricsResult (flatResponseTimes results) with
      | .error e => .error e
      | .ok responseTime =>
        match overallPassed (mkChecks (configCheck workflow) responseTime) with
        | .error e => .error e
        | .ok passed =>
          .ok
            { workflow := workflow
              result :=
                { stats :=
                    { tests :=
                        { passed := (results.filter fun r => r.passed == true).length
                          total := results.length }
                      steps :=
                        { passed := (flatStepsPassed results).length
                          total := ((flatStepsPassed results).filter fun s => s).length } }
                  responseTime := responseTime
                  iterations := results.length
                  rps := ((flatResponseTimes results).length : ℚ) / ((now1 - start) / 1000)
                  duration := now2 - start
                  passed := passed
                  checks := mkChecks (configCheck workflow) responseTime } }

/-- JavaScript truthiness of an optional check-block key. -/
def checkKeyTruthy : Option Threshold → Bool
  | none => false
  | some t => t.truthy

/-- A one-phase schedule used by the concrete scenarios. -/
def phase1 : Phase := { arrivalRate := 1, duration := 1 }

/-- A passing step with response time 100. -/
def okStep : StepResult := { passed := true, responseTime := 100 }

/-- A failing step with response time 100. -/
def failStep : StepResult := { passed := false, responseTime := 100 }

/-- A fulfilled iteration whose one step passed. -/
def outcomeOk : WorkflowResult :=
  { result := { passed := true, tests := [{ steps := [okStep] }] } }

/-- A fulfilled iteration whose one step failed. -/
def outcomeFail : WorkflowResult :=
  { result := { passed := false, tests := [{ steps := [failStep] }] } }

/-- A check block with no key configured. -/
def emptyCheck : LoadTestCheck :=
  { avg := none, min := none, max := none, med := none, p95 := none, p99 := none }

/-- A check block whose `avg` key carries the numeric threshold `0` (falsy in
JavaScript) and whose `p99` key carries an empty matcher list (truthy). -/
def checkB : LoadTestCheck :=
  { avg := some (.num 0), min := none, max := none, med := none, p95 := none
    p99 := some (.matchers []) }

/-- A workflow with one phase and an empty check block. -/
def wfEmptyCheck : Workflow :=
  { config := some { loadTest := some { phases := some [phase1], check := some emptyCheck } } }

/-- A workflow with one phase and no check block. -/
def wfNoCheck : Workflow :=
  { config := some { loadTest := some { phases := some [phase1], check := none } } }

/-- A workflow with one phase and the check block `checkB`. -/
def wfB : Workflow :=
  { config := some { loadTest := some { phases := some [phase1], check := some checkB } } }

/-- A workflow with no configuration at all. -/
def wfNoConfig : Workflow := { config := none }

/-- The report returned by `loadTest wfB [Settled.fulfilled outcomeOk] 0 1000 2000`. -/
def reportB : LoadTestResult :=
  { workflow := wfB
    result :=
      { stats :=
          { tests := { passed := 1, total := 1 }
            steps := { passed := 1, total := 1 } }
        responseTime := { avg := 100, min := 100, max := 100, med := 100, p95 := 100, p99 := 100 }
        iterations := 1
        rps := 1
        duration := 2000
        passed := true
        checks := some
          { avg := none, min := none, max := none, med := none, p95 := none
            p99 := some { given := 100, passed := true } } } }

theorem loadTest_reportB :
    loadTest wfB [Settled.fulfilled outcomeOk] 0 1000 2000 = .ok reportB := by
  with_unfolding_all rfl

theorem metricsResult_100 :
    metricsResult [100] =
      .ok { avg := 100, min := 100, max := 100, med := 100, p95 := 100, p99 := 100 } := by
  with_unfolding_all rfl

theorem loadTest_ok_elim {w : Workflow} {settled : List (Settled WorkflowResult)}
    {start now1 now2 : ℚ} {r : LoadTestResult}
    (h : loadTest w settled start now1 now2 = .ok r) :
    ∃ results responseTime passed,
      harvestResults settled = .ok results ∧
      metricsResult (flatResponseTimes results) = .ok responseTime ∧
      overallPassed (mkChecks (configCheck w) responseTime) = .ok passed ∧
      r = { workflow := w
            result :=
              { stats :=
                  { tests :=
                      { passed := (results.filter fun x => x.passed == true).length
                        total := results.length }
                    steps :=
                      { passed := (flatStepsPassed results).length
                        total := ((flatStepsPassed results).filter fun s => s).length } }
                responseTime := responseTime
                iterations := results.length
                rps := ((flatResponseTimes results).length : ℚ) / ((now1 - start) / 1000)
                duration := now2 - start
                passed := passed
                checks := mkChecks (configCheck w) responseTime } } := by
  cases hph : configPhases w with
  | none =>
    simp only [loadTest, hph] at h
    exact Except.noConfusion h
  | some phs =>
    cases hres : harvestResults settled with
    | error e =>
      simp only [loadTest, hph, hres] at h
      exact Except.noConfusion h
    | ok results =>
      cases hmet : metricsResult (flatResponseTimes results) with
      | error e =>
        simp only [loadTest, hph, hres, hmet] at h
        exact Except.noConfusion h
      | ok rt =>
        cases hover : overallPassed (mkChecks (configCheck w) rt) with
        | error e =>
          simp only [loadTest, hph, hres, hmet, hover] at h
          exact Except.noConfusion h
        | ok pss =>
          simp only [loadTest, hph, hres, hmet, hover] at h
          cases h
          exact ⟨results, rt, pss, rfl, hmet, hover, rfl⟩

theorem metricsResult_ok_elim {numbers : List ℚ} {m : LoadTestMetric}
    (h : metricsResult numbers = .ok m) :
    SimpleStatistics.mean numbers = some m.avg ∧
    SimpleStatistics.min numbers = some m.min ∧
    SimpleStatistics.max numbers = some m.max ∧
    SimpleStatistics.median numbers = some m.med ∧
    SimpleStatistics.quantile numbers (95/100) = some m.p95 ∧
    SimpleStatistics.quantile numbers (99/100) = some m.p99 := by
  unfold metricsResult at h
  split at h
  · rename_i avg mn mx md q95 q99 h1 h2 h3 h4 h5 h6
    cases h
    exact ⟨h1, h2, h3, h4, h5, h6⟩
  · exact Except.noConfusion h

/-- C4: a workflow whose configuration lacks a load-test block with phases makes
`loadTest` fail with the missing-load-test-config condition, for every scheduler
output and every clock reading: no iteration outcome is consumed and no report
is produced. -/
theorem loadTest_missingConfig (w : Workflow) (settled : List (Settled WorkflowResult))
    (start now1 now2 : ℚ) (h : configPhases w = none) :
    loadTest w settled start now1 now2 = .error .missingLoadTestConfig := by
  unfold loadTest
  rw [h]

theorem loadTest_missingConfig_witness :
    configPhases wfNoConfig = none ∧
    loadTest wfNoConfig [Settled.fulfilled outcomeOk] 0 1000 2000
      = .error .missingLoadTestConfig :=
  ⟨rfl, loadTest_missingConfig wfNoConfig [Settled.fulfilled outcomeOk] 0 1000 2000 rfl⟩

/-- C1: the claim `stats.steps.total ≥ stats.steps.passed` fails on the code: in
the report literal (lines 127-130) the `passed` member receives the length of
all flattened steps and the `total` member the length of the passed ones — the
two are swapped.  On a run with one failing step the code reports
`steps.passed = 1` and `steps.total = 0`. -/
theorem loadTest_steps_stats_swapped :
    (loadTest wfEmptyCheck [Settled.fulfilled outcomeFail] 0 1000 2000).map
        (fun r => (r.result.stats.steps.passed, r.result.stats.steps.total)) = .ok (1, 0) := by
  with_unfolding_all rfl

/-- C2: the claim that a phases-only configuration (no check block) yields a
passing report fails on the code: with `checks` left `undefined`, line 141
evaluates `Object.entries(undefined)`, which throws a `TypeError`, so
`loadTest` fails instead of returning a report. -/
theorem loadTest_noCheck_throws :
    loadTest wfNoCheck [Settled.fulfilled outcomeOk] 0 1000 2000
      = .error .checksEntriesTypeError := by
  with_unfolding_all rfl

/-- C3: the claim that a rejected iteration is absorbed as a non-passed
iteration fails on the code: line 80 casts every settled outcome to
`PromiseFulfilledResult` and reads `.value.result`, which throws a `TypeError`
on a rejected outcome, so the whole call fails. -/
theorem loadTest_rejected_throws :
    loadTest wfNoCheck [Settled.fulfilled outcomeOk, Settled.rejected] 0 1000 2000
      = .error .harvestTypeError := by
  with_unfolding_all rfl

/-- C8: in every returned report, `stats.tests.passed` is the number of
harvested iterations whose top-level passed flag is true, `stats.tests.total`
is the number of harvested iterations, and `passed ≤ total` (both are counts,
hence nonnegative). -/
theorem loadTest_tests_stats {w : Workflow} {settled : List (Settled WorkflowResult)}
    {start now1 now2 : ℚ} {r : LoadTestResult} {results : List WorkflowResultValue}
    (h : loadTest w settled start now1 now2 = .ok r)
    (hres : harvestResults settled = .ok results) :
    r.result.stats.tests.passed = (results.filter fun x => x.passed == true).length ∧
    r.result.stats.tests.total = results.length ∧
    r.result.stats.tests.passed ≤ r.result.stats.tests.total := by
  obtain ⟨results', rt, pss, hres', hmet, hover, rfl⟩ := loadTest_ok_elim h
  rw [hres'] at hres
  cases hres
  exact ⟨rfl, rfl, List.length_filter_le _ _⟩

theorem loadTest_tests_stats_witness :
    reportB.result.stats.tests.passed
        = (([outcomeOk.result]).filter fun x => x.passed == true).length ∧
    reportB.result.stats.tests.total = [outcomeOk.result].length ∧
    reportB.result.stats.tests.passed ≤ reportB.result.stats.tests.total :=
  loadTest_tests_stats loadTest_reportB rfl

/-- C9: in every returned report, `rps` equals the number of collected latency
samples divided by the elapsed wall-clock seconds `(now1 - start) / 1000`,
where `now1` is the clock reading taken for the rps computation (the clock is
an input of the model; the hypothesis `0 < now1 - start` keeps the statement
within the exact-arithmetic model, since JavaScript would produce `Infinity`
on a zero elapsed time). -/
theorem loadTest_rps_eq {w : Workflow} {settled : List (Settled WorkflowResult)}
    {start now1 now2 : ℚ} {r : LoadTestResult} {results : List WorkflowResultValue}
    (h : loadTest w settled start now1 now2 = .ok r)
    (hres : harvestResults settled = .ok results)
    (_helapsed : 0 < now1 - start) :
    r.result.rps = ((flatResponseTimes results).length : ℚ) / ((now1 - start) / 1000) := by
  obtain ⟨results', rt, pss, hres', hmet, hover, rfl⟩ := loadTest_ok_elim h
  rw [hres'] at hres
  cases hres
  rfl

theorem loadTest_rps_eq_witness :
    reportB.result.rps
      = ((flatResponseTimes [outcomeOk.result]).length : ℚ) / (((1000 : ℚ) - 0) / 1000) :=
  loadTest_rps_eq loadTest_reportB rfl (by norm_num)

theorem flat_lengths_eq (results : List WorkflowResultValue) :
    (flatResponseTimes results).length = (flatStepsPassed results).length := by
  simp [flatResponseTimes, flatStepsPassed, List.length_flatten, List.map_map,
    Function.comp_def, List.length_map]

/-- C10: in every returned report, the `iterations` member equals
`stats.tests.total` (both count the harvested iterations), and the number of
latency samples fed to the aggregator equals the number of flattened steps. -/
theorem loadTest_iterations_eq_total {w : Workflow} {settled : List (Settled WorkflowResult)}
    {start now1 now2 : ℚ} {r : LoadTestResult} {results : List WorkflowResultValue}
    (h : loadTest w settled start now1 now2 = .ok r)
    (hres : harvestResults settled = .ok results) :
    r.result.iterations = r.result.stats.tests.total ∧
    (flatResponseTimes results).length = (flatStepsPassed results).length := by
  obtain ⟨results', rt, pss, hres', hmet, hover, rfl⟩ := loadTest_ok_elim h
  rw [hres'] at hres
  cases hres
  exact ⟨rfl, flat_lengths_eq _⟩

theorem loadTest_iterations_eq_total_witness :
    reportB.result.iterations = reportB.result.stats.tests.total ∧
    (flatResponseTimes [outcomeOk.result]).length = (flatStepsPassed [outcomeOk.result]).length :=
  loadTest_iterations_eq_total loadTest_reportB rfl

theorem evalCheckKey_isSome (t : Option Threshold) (observed : ℚ) :
    (evalCheckKey t observed).isSome = checkKeyTruthy t := by
  cases t with
  | none => rfl
  | some th =>
    cases hq : th.truthy with
    | false =>
      simp only [evalCheckKey, checkKeyTruthy, hq]
      rw [if_neg (by simp [hq])]
      rfl
    | true =>
      simp only [evalCheckKey, checkKeyTruthy, hq]
      rw [if_pos (by simp [hq])]
      rfl

/-- C5 counterexample: the claim promises a check entry for every metric key
present in the check block, but the code skips falsy values: in `wfB` the `avg`
key is present with the numeric threshold `0`, yet the returned checks mapping
has no `avg` entry. -/
theorem checks_zero_threshold_skipped_cx :
    checkB.avg = some (Threshold.num 0) ∧ configCheck wfB = some checkB ∧
    (loadTest wfB [Settled.fulfilled outcomeOk] 0 1000 2000).map
        (fun r => r.result.checks.map fun c => c.avg) = .ok (some none) := by
  refine ⟨rfl, rfl, ?_⟩
  with_unfolding_all rfl

/-- C5 (amended): in every returned report of a run whose configuration has a
check block, the checks mapping has an entry exactly for the metric keys whose
configured value is present and truthy in the JavaScript sense — a key set to
the numeric threshold `0` is skipped, every matcher-list value is kept. -/
theorem loadTest_checks_truthy_keys {w : Workflow} {settled : List (Settled WorkflowResult)}
    {start now1 now2 : ℚ} {r : LoadTestResult} {ck : LoadTestCheck}
    {cr : LoadTestChecksResult}
    (h : loadTest w settled start now1 now2 = .ok r)
    (hck : configCheck w = some ck)
    (hcr : r.result.checks = some cr) :
    cr.avg.isSome = checkKeyTruthy ck.avg ∧ cr.min.isSome = checkKeyTruthy ck.min ∧
    cr.max.isSome = checkKeyTruthy ck.max ∧ cr.med.isSome = checkKeyTruthy ck.med ∧
    cr.p95.isSome = checkKeyTruthy ck.p95 ∧ cr.p99.isSome = checkKeyTruthy ck.p99 := by
  obtain ⟨results, rt, pss, hres, hmet, hover, rfl⟩ := loadTest_ok_elim h
  replace hcr : mkChecks (configCheck w) rt = some cr := hcr
  rw [hck] at hcr
  simp only [mkChecks] at hcr
  cases hcr
  exact ⟨evalCheckKey_isSome _ _, evalCheckKey_isSome _ _, evalCheckKey_isSome _ _,
    evalCheckKey_isSome _ _, evalCheckKey_isSome _ _, evalCheckKey_isSome _ _⟩

theorem loadTest_checks_truthy_keys_witness :
    (none : Option CheckResult).isSome = checkKeyTruthy checkB.avg ∧
    (none : Option CheckResult).isSome = checkKeyTruthy checkB.min ∧
    (none : Option CheckResult).isSome = checkKeyTruthy checkB.max ∧
    (none : Option CheckResult).isSome = checkKeyTruthy checkB.med ∧
    (none : Option CheckResult).isSome = checkKeyTruthy checkB.p95 ∧
    (some { given := 100, passed := true } : Option CheckResult).isSome
        = checkKeyTruthy checkB.p99 :=
  loadTest_checks_truthy_keys loadTest_reportB rfl rfl

theorem sorted_getD_le {x : List ℚ} (hs : x.Sorted (· ≤ ·)) {i j : ℕ}
    (hij : i ≤ j) (hj : j < x.length) : x.getD i 0 ≤ x.getD j 0 := by
  have hi : i < x.length := Nat.lt_of_le_of_lt hij hj
  rw [List.getD_eq_getElem x 0 hi, List.getD_eq_getElem x 0 hj]
  rcases Nat.eq_or_lt_of_le hij with rfl | hlt
  · exact le_refl _
  · have h2 := hs.rel_get_of_lt (a := ⟨i, hi⟩) (b := ⟨j, hj⟩) hlt
    simpa using h2

theorem foldl_min_le (l : List ℚ) (a : ℚ) :
    l.foldl Min.min a ≤ a ∧ ∀ y ∈ l, l.foldl Min.min a ≤ y := by
  induction l generalizing a with
  | nil => exact ⟨le_refl a, fun y hy => absurd hy (List.not_mem_nil y)⟩
  | cons b t ih =>
    refine ⟨le_trans (ih (Min.min a b)).1 (min_le_left a b), ?_⟩
    intro y hy
    rcases List.mem_cons.mp hy with rfl | hmem
    · exact le_trans (ih (Min.min a y)).1 (min_le_right a y)
    · exact (ih (Min.min a b)).2 y hmem

theorem foldl_max_ge (l : List ℚ) (a : ℚ) :
    a ≤ l.foldl Max.max a ∧ ∀ y ∈ l, y ≤ l.foldl Max.max a := by
  induction l generalizing a with
  | nil => exact ⟨le_refl a, fun y hy => absurd hy (List.not_mem_nil y)⟩
  | cons b t ih =>
    refine ⟨le_trans (le_max_left a b) (ih (Max.max a b)).1, ?_⟩
    intro y hy
    rcases List.mem_cons.mp hy with rfl | hmem
    · exact le_trans (le_max_right a y) (ih (Max.max a y)).1
    · exact (ih (Max.max a b)).2 y hmem

theorem ss_min_le {l : List ℚ} {v : ℚ} (h : SimpleStatistics.min l = some v) :
    ∀ y ∈ l, v ≤ y := by
  cases l with
  | nil => exact absurd h (by simp [SimpleStatistics.min])
  | cons a t =>
    simp only [SimpleStatistics.min] at h
    obtain rfl : t.foldl Min.min a = v := Option.some.inj h
    intro y hy
    rcases List.mem_cons.mp hy with rfl | hmem
    · exact (foldl_min_le t y).1
    · exact (foldl_min_le t a).2 y hmem

theorem ss_max_ge {l : List ℚ} {v : ℚ} (h : SimpleStatistics.max l = some v) :
    ∀ y ∈ l, y ≤ v := by
  cases l with
  | nil => exact absurd h (by simp [SimpleStatistics.max])
  | cons a t =>
    simp only [SimpleStatistics.max] at h
    obtain rfl : t.foldl Max.max a = v := Option.some.inj h
    intro y hy
    rcases List.mem_cons.mp hy with rfl | hmem
    · exact (foldl_max_ge t y).1
    · exact (foldl_max_ge t a).2 y hmem

theorem quantileSorted_cases {x : List ℚ} {p v : ℚ} (hs : x.Sorted (· ≤ ·))
    (hlen : x.length ≠ 0) (hp0 : 0 < p) (hp1 : p < 1)
    (hv : SimpleStatistics.quantileSorted x p = some v) :
    1 ≤ ⌈(x.length : ℚ) * p⌉.toNat ∧ ⌈(x.length : ℚ) * p⌉.toNat ≤ x.length ∧
    ((((x.length : ℚ) * p).den ≠ 1 ∧ v = x.getD (⌈(x.length : ℚ) * p⌉.toNat - 1) 0) ∨
     (((x.length : ℚ) * p).den = 1 ∧ ⌈(x.length : ℚ) * p⌉.toNat < x.length ∧
       x.getD (⌈(x.length : ℚ) * p⌉.toNat - 1) 0 ≤ v ∧
       v ≤ x.getD ⌈(x.length : ℚ) * p⌉.toNat 0)) := by
  have hn0 : 0 < x.length := Nat.pos_of_ne_zero hlen
  have hnq : (0:ℚ) < (x.length : ℚ) := by exact_mod_cast hn0
  have hidx0 : (0:ℚ) < (x.length : ℚ) * p := mul_pos hnq hp0
  have hidxn : (x.length : ℚ) * p < (x.length : ℚ) := by nlinarith
  have hceil1 : (0:ℤ) < ⌈(x.length : ℚ) * p⌉ := by
    rw [Int.lt_ceil]
    exact_mod_cast hidx0
  have hceiln : ⌈(x.length : ℚ) * p⌉ ≤ (x.length : ℤ) := by
    rw [Int.ceil_le]
    exact_mod_cast le_of_lt hidxn
  have hk1 : 1 ≤ ⌈(x.length : ℚ) * p⌉.toNat := by omega
  have hkn : ⌈(x.length : ℚ) * p⌉.toNat ≤ x.length := by omega
  refine ⟨hk1, hkn, ?_⟩
  have hnotrange : ¬(p < 0 ∨ 1 < p) := by push_neg; exact ⟨le_of_lt hp0, le_of_lt hp1⟩
  unfold SimpleStatistics.quantileSorted at hv
  rw [if_neg hlen, if_neg hnotrange, if_neg (ne_of_lt hp1), if_neg (ne_of_gt hp0)] at hv
  by_cases hden : ((x.length : ℚ) * p).den ≠ 1
  · rw [if_pos hden] at hv
    exact Or.inl ⟨hden, (Option.some.inj hv).symm⟩
  · push_neg at hden
    rw [if_neg (by simp [hden])] at hv
    have hnum : ((((x.length : ℚ) * p).num : ℚ)) = (x.length : ℚ) * p := by
      conv_rhs => rw [← Rat.num_div_den ((x.length : ℚ) * p)]
      rw [hden]
      simp
    have hceilnum : ⌈(x.length : ℚ) * p⌉ = ((x.length : ℚ) * p).num := by
      conv_lhs => rw [← hnum]
      rw [Int.ceil_intCast]
    have hnumlt : ((x.length : ℚ) * p).num < (x.length : ℤ) := by
      have h3 := hidxn
      rw [← hnum] at h3
      exact_mod_cast h3
    have hklt : ⌈(x.length : ℚ) * p⌉.toNat < x.length := by omega
    have htonat : ⌈(x.length : ℚ) * p⌉.toNat = ((x.length : ℚ) * p).num.toNat := by
      rw [hceilnum]
    have hjlt : ((x.length : ℚ) * p).num.toNat < x.length := htonat ▸ hklt
    have hab := sorted_getD_le hs (Nat.sub_le _ 1) hjlt
    have hbounds :
        x.getD (((x.length : ℚ) * p).num.toNat - 1) 0 ≤ v ∧
        v ≤ x.getD (((x.length : ℚ) * p).num.toNat) 0 := by
      by_cases hpar : x.length % 2 = 0
      · rw [if_pos hpar] at hv
        have hv2 : v = (x.getD (((x.length : ℚ) * p).num.toNat - 1) 0
            + x.getD (((x.length : ℚ) * p).num.toNat) 0) / 2 := (Option.some.inj hv).symm
        constructor <;> · rw [hv2]; linarith
      · rw [if_neg hpar] at hv
        have hv2 : v = x.getD (((x.length : ℚ) * p).num.toNat) 0 := (Option.some.inj hv).symm
        exact ⟨hv2 ▸ hab, hv2 ▸ le_refl _⟩
    refine Or.inr ⟨hden, hklt, ?_, ?_⟩
    · rw [htonat]
      exact hbounds.1
    · rw [htonat]
      exact hbounds.2

theorem quantileSorted_bounds {x : List ℚ} {p v : ℚ} (hs : x.Sorted (· ≤ ·))
    (hlen : x.length ≠ 0) (hp0 : 0 < p) (hp1 : p < 1)
    (hv : SimpleStatistics.quantileSorted x p = some v) :
    x.getD 0 0 ≤ v ∧ v ≤ x.getD (x.length - 1) 0 := by
  obtain ⟨hk1, hkn, hcase⟩ := quantileSorted_cases hs hlen hp0 hp1 hv
  have hn0 : 0 < x.length := Nat.pos_of_ne_zero hlen
  rcases hcase with ⟨-, rfl⟩ | ⟨-, hklt, hlow, hhigh⟩
  · exact ⟨sorted_getD_le hs (Nat.zero_le _) (by omega),
      sorted_getD_le hs (by omega) (by omega)⟩
  · exact ⟨le_trans (sorted_getD_le hs (Nat.zero_le _) (by omega)) hlow,
      le_trans hhigh (sorted_getD_le hs (by omega) (by omega))⟩

theorem quantileSorted_mono {x : List ℚ} {p q v w : ℚ} (hs : x.Sorted (· ≤ ·))
    (hlen : x.length ≠ 0) (hp0 : 0 < p) (hpq : p < q) (hq1 : q < 1)
    (hv : SimpleStatistics.quantileSorted x p = some v)
    (hw : SimpleStatistics.quantileSorted x q = some w) : v ≤ w := by
  have hq0 : 0 < q := lt_trans hp0 hpq
  have hp1 : p < 1 := lt_trans hpq hq1
  have hn0 : 0 < x.length := Nat.pos_of_ne_zero hlen
  have hnq : (0:ℚ) < (x.length : ℚ) := by exact_mod_cast hn0
  have hidxpq : (x.length : ℚ) * p < (x.length : ℚ) * q := by nlinarith
  obtain ⟨hk1p, hknp, hcasep⟩ := quantileSorted_cases hs hlen hp0 hp1 hv
  obtain ⟨hk1q, hknq, hcaseq⟩ := quantileSorted_cases hs hlen hq0 hq1 hw
  have hceilmono : ⌈(x.length : ℚ) * p⌉ ≤ ⌈(x.length : ℚ) * q⌉ :=
    Int.ceil_mono (le_of_lt hidxpq)
  have hceil1p : (0:ℤ) < ⌈(x.length : ℚ) * p⌉ := by
    rw [Int.lt_ceil]
    push_cast
    exact mul_pos hnq hp0
  have hceil1q : (0:ℤ) < ⌈(x.length : ℚ) * q⌉ := by
    rw [Int.lt_ceil]
    push_cast
    exact mul_pos hnq hq0
  have hwlow : x.getD (⌈(x.length : ℚ) * q⌉.toNat - 1) 0 ≤ w := by
    rcases hcaseq with ⟨-, rfl⟩ | ⟨-, -, hlow, -⟩
    · exact le_refl _
    · exact hlow
  rcases hcasep with ⟨-, rfl⟩ | ⟨hden, hklt, -, hhigh⟩
  · have hle : ⌈(x.length : ℚ) * p⌉.toNat - 1 ≤ ⌈(x.length : ℚ) * q⌉.toNat - 1 := by omega
    exact le_trans (sorted_getD_le hs hle (by omega)) hwlow
  · have hnum : ((((x.length : ℚ) * p).num : ℚ)) = (x.length : ℚ) * p := by
      conv_rhs => rw [← Rat.num_div_den ((x.length : ℚ) * p)]
      rw [hden]
      simp
    have hceilnump : ⌈(x.length : ℚ) * p⌉ = ((x.length : ℚ) * p).num := by
      conv_lhs => rw [← hnum]
      rw [Int.ceil_intCast]
    have hlt : ⌈(x.length : ℚ) * p⌉ < ⌈(x.length : ℚ) * q⌉ := by
      rw [hceilnump, Int.lt_ceil, hnum]
      exact hidxpq
    have hkk : ⌈(x.length : ℚ) * p⌉.toNat ≤ ⌈(x.length : ℚ) * q⌉.toNat - 1 := by omega
    exact le_trans hhigh (le_trans (sorted_getD_le hs hkk (by omega)) hwlow)

theorem quantileSorted_exists {x : List ℚ} {p : ℚ} (hlen : x.length ≠ 0)
    (hp0 : 0 < p) (hp1 : p < 1) : ∃ v, SimpleStatistics.quantileSorted x p = some v := by
  have hnotrange : ¬(p < 0 ∨ 1 < p) := by push_neg; exact ⟨le_of_lt hp0, le_of_lt hp1⟩
  unfold SimpleStatistics.quantileSorted
  rw [if_neg hlen, if_neg hnotrange, if_neg (ne_of_lt hp1), if_neg (ne_of_gt hp0)]
  by_cases hden : ((x.length : ℚ) * p).den ≠ 1
  · rw [if_pos hden]
    exact ⟨_, rfl⟩
  · rw [if_neg hden]
    by_cases hpar : x.length % 2 = 0
    · rw [if_pos hpar]
      exact ⟨_, rfl⟩
    · rw [if_neg hpar]
      exact ⟨_, rfl⟩

theorem ss_quantile_exists {l : List ℚ} {p : ℚ} (h : l ≠ []) (hp0 : 0 < p) (hp1 : p < 1) :
    ∃ v, SimpleStatistics.quantile l p = some v := by
  unfold SimpleStatistics.quantile
  apply quantileSorted_exists ?_ hp0 hp1
  rw [SimpleStatistics.numericSort, (List.perm_insertionSort _ l).length_eq]
  simpa using h

theorem ss_mean_exists {l : List ℚ} (h : l ≠ []) : ∃ v, SimpleStatistics.mean l = some v := by
  refine ⟨l.sum / (l.length : ℚ), ?_⟩
  unfold SimpleStatistics.mean
  rw [if_neg (by simpa using h)]

theorem ss_min_exists {l : List ℚ} (h : l ≠ []) : ∃ v, SimpleStatistics.min l = some v := by
  cases l with
  | nil => exact absurd rfl h
  | cons a t => exact ⟨t.foldl Min.min a, rfl⟩

theorem ss_max_exists {l : List ℚ} (h : l ≠ []) : ∃ v, SimpleStatistics.max l = some v := by
  cases l with
  | nil => exact absurd rfl h
  | cons a t => exact ⟨t.foldl Max.max a, rfl⟩

theorem ss_median_exists {l : List ℚ} (h : l ≠ []) :
    ∃ v, SimpleStatistics.median l = some v := by
  unfold SimpleStatistics.median
  exact ss_quantile_exists h (by norm_num) (by norm_num)

/-- C7: the metric aggregation fails with the empty-sample-set condition exactly
on the empty sample list; on every non-empty list it returns a complete
`LoadTestMetric` (no error value stands in for a summary). -/
theorem metricsResult_error_iff (numbers : List ℚ) :
    metricsResult numbers = .error .emptySampleSet ↔ numbers = [] := by
  constructor
  · intro h
    by_contra hne
    obtain ⟨v1, h1⟩ := ss_mean_exists hne
    obtain ⟨v2, h2⟩ := ss_min_exists hne
    obtain ⟨v3, h3⟩ := ss_max_exists hne
    obtain ⟨v4, h4⟩ := ss_median_exists hne
    obtain ⟨v5, h5⟩ := ss_quantile_exists (p := 95/100) hne (by norm_num) (by norm_num)
    obtain ⟨v6, h6⟩ := ss_quantile_exists (p := 99/100) hne (by norm_num) (by norm_num)
    unfold metricsResult at h
    rw [h1, h2, h3, h4, h5, h6] at h
    exact Except.noConfusion h
  · rintro rfl
    rfl

/-- C6: every summary produced by the metric aggregator on a (necessarily
non-empty) sample list is internally ordered:
`min ≤ med ≤ p95 ≤ p99 ≤ max` and `min ≤ avg ≤ max`. -/
theorem metricsResult_ordered {numbers : List ℚ} {m : LoadTestMetric}
    (h : metricsResult numbers = .ok m) :
    m.min ≤ m.med ∧ m.med ≤ m.p95 ∧ m.p95 ≤ m.p99 ∧ m.p99 ≤ m.max ∧
    m.min ≤ m.avg ∧ m.avg ≤ m.max := by
  obtain ⟨havg, hmin, hmax, hmed, hp95, hp99⟩ := metricsResult_ok_elim h
  have hne : numbers ≠ [] := by
    intro heq
    rw [heq] at havg
    simp [SimpleStatistics.mean] at havg
  have hn0 : 0 < numbers.length := List.length_pos.mpr hne
  rw [SimpleStatistics.median, SimpleStatistics.quantile] at hmed
  rw [SimpleStatistics.quantile] at hp95 hp99
  have hs : (SimpleStatistics.numericSort numbers).Sorted (· ≤ ·) :=
    List.sorted_insertionSort _ numbers
  have hperm : List.Perm (SimpleStatistics.numericSort numbers) numbers :=
    List.perm_insertionSort _ numbers
  have hslen : (SimpleStatistics.numericSort numbers).length = numbers.length :=
    hperm.length_eq
  have hslen0 : (SimpleStatistics.numericSort numbers).length ≠ 0 := by omega
  have hmed95 : m.med ≤ m.p95 :=
    quantileSorted_mono hs hslen0 (by norm_num) (by norm_num) (by norm_num) hmed hp95
  have h9599 : m.p95 ≤ m.p99 :=
    quantileSorted_mono hs hslen0 (by norm_num) (by norm_num) (by norm_num) hp95 hp99
  have hmedB := quantileSorted_bounds hs hslen0 (by norm_num) (by norm_num) hmed
  have hp99B := quantileSorted_bounds hs hslen0 (by norm_num) (by norm_num) hp99
  have hhead_mem : (SimpleStatistics.numericSort numbers).getD 0 0 ∈ numbers := by
    apply hperm.mem_iff.mp
    rw [List.getD_eq_getElem _ 0 (by omega)]
    exact List.getElem_mem _
  have hlast_mem : (SimpleStatistics.numericSort numbers).getD
      ((SimpleStatistics.numericSort numbers).length - 1) 0 ∈ numbers := by
    apply hperm.mem_iff.mp
    rw [List.getD_eq_getElem _ 0 (by omega)]
    exact List.getElem_mem _
  have hminle : ∀ y ∈ numbers, m.min ≤ y := ss_min_le hmin
  have hmaxge : ∀ y ∈ numbers, y ≤ m.max := ss_max_ge hmax
  have hmin_head : m.min ≤ (SimpleStatistics.numericSort numbers).getD 0 0 :=
    hminle _ hhead_mem
  have hmax_last : (SimpleStatistics.numericSort numbers).getD
      ((SimpleStatistics.numericSort numbers).length - 1) 0 ≤ m.max :=
    hmaxge _ hlast_mem
  have havg_eq : m.avg = numbers.sum / (numbers.length : ℚ) := by
    unfold SimpleStatistics.mean at havg
    rw [if_neg (by omega)] at havg
    exact (Option.some.inj havg).symm
  have hnnq : (0:ℚ) < (numbers.length : ℚ) := by exact_mod_cast hn0
  have hmin_avg : m.min ≤ m.avg := by
    rw [havg_eq, le_div_iff₀ hnnq]
    have h1 := List.card_nsmul_le_sum numbers m.min hminle
    rw [nsmul_eq_mul] at h1
    linarith
  have havg_max : m.avg ≤ m.max := by
    rw [havg_eq, div_le_iff₀ hnnq]
    have h1 := List.sum_le_card_nsmul numbers m.max hmaxge
    rw [nsmul_eq_mul] at h1
    linarith
  exact ⟨le_trans hmin_head hmedB.1, hmed95, h9599, le_trans hp99B.2 hmax_last,
    hmin_avg, havg_max⟩

theorem metricsResult_ordered_witness :
    (100:ℚ) ≤ 100 ∧ (100:ℚ) ≤ 100 ∧ (100:ℚ) ≤ 100 ∧ (100:ℚ) ≤ 100 ∧
    (100:ℚ) ≤ 100 ∧ (100:ℚ) ≤ 100 :=
  metricsResult_ordered metricsResult_100
